import Mathlib

/-!
# Verification of the lazy quadtree ("region tree") from the repository

This file gives a shallow embedding of the `quadtree` class found in the
repository's source (a 2-D range-update / range-query structure with lazy
node materialization and lazy propagation), together with theorems settling
the specification's claims about it.

Modelling conventions:
* C++ `int` coordinates become `Int`.  All coordinates reachable from the
  root rectangle `[0, MAXR] × [0, MAXC]` are nonnegative and at most
  `10^9 + 1`, so no arithmetic on coordinates can overflow a 32-bit int and
  plain `Int` is faithful there.
* Area products `rlen*clen` can exceed `2^31 - 1`; the C++ code computes
  them in 32-bit `int`.  We model this with an explicit two's-complement
  reduction `wrap32`.
* The mutable pointer tree becomes the inductive `node_t` with `Option`
  children; mutation becomes returning the updated node.
* The helper member variables `tgt_*`, `delta`, `res`, `found` of the C++
  class become explicit parameters / accumulators.  Note the private
  `update_delta(n, r1, c1, r2, c2)` of the source reads the *member*
  variable `delta` (the delta of the most recent public `update` call), not
  `n->delta`; the embedding mirrors this faithfully (parameter `md`).
* Recursion uses fuel; the public operations run with `FUEL = 32`, and a
  theorem below shows every call with the stated preconditions is
  insensitive to any fuel at least `FUEL`, i.e. the recursion reaches a
  base case on every path.
-/

namespace Quadtree

/-- Two's-complement wrap-around of 32-bit signed `int` arithmetic. -/
def wrap32 (x : Int) : Int :=
  (x + 2 ^ 31) % 2 ^ 32 - 2 ^ 31

/-- `static const int MAXR = 1000000000;` -/
def MAXR : Int := 1000000000

/-- `static const int MAXC = 1000000000;` -/
def MAXC : Int := 1000000000

/-- The four pluggable operations of the structure (the static member
functions `join_values`, `join_region`, `join_value_with_delta`,
`join_deltas` of the C++ class). -/
structure Policy (T : Type) where
  join_values : T → T → T
  join_region : T → Int → T
  join_value_with_delta : T → T → Int → T
  join_deltas : T → T → T

/-- The default operations exactly as written in the source:
`join_values` is `std::min`, `join_region` returns `v`,
`join_value_with_delta` returns `d`, and `join_deltas` returns `d2`
("for set updates, the more recent delta prevails"). -/
def defaultPolicy : Policy Int where
  join_values a b := min a b
  join_region v _ := v
  join_value_with_delta _ d _ := d
  join_deltas _ d2 := d2

/-- `struct node_t`: an aggregate `value`, a pending `delta`, the `pending`
flag and four owned children (NW, NE, SW, SE), each possibly absent.
The C++ constructor leaves `delta` uninitialized; along every code path the
field is written before it is read, so the embedding initializes it to the
node's value without affecting any observable behaviour. -/
inductive node_t (T : Type) : Type where
  | mk (value delta : T) (pending : Bool)
       (c0 c1 c2 c3 : Option (node_t T)) : node_t T

namespace node_t

variable {T : Type}

def value : node_t T → T
  | mk v _ _ _ _ _ _ => v

def delta : node_t T → T
  | mk _ d _ _ _ _ _ => d

def pending : node_t T → Bool
  | mk _ _ p _ _ _ _ => p

def c0 : node_t T → Option (node_t T)
  | mk _ _ _ a _ _ _ => a

def c1 : node_t T → Option (node_t T)
  | mk _ _ _ _ a _ _ => a

def c2 : node_t T → Option (node_t T)
  | mk _ _ _ _ _ a _ => a

def c3 : node_t T → Option (node_t T)
  | mk _ _ _ _ _ _ a => a

/-- `node_t(const T &v)`: fresh node with the given value, not pending,
all children absent. -/
def fresh (v : T) : node_t T := mk v v false none none none none

end node_t

variable {T : Type}

/-- `void update_delta(node_t *&n, const T &d, int area)`: create the node
if absent (with `join_region(init, area)`), merge `d` into its pending
delta (`join_deltas` if already pending, plain assignment otherwise) and
mark it pending. -/
def update_delta_push (p : Policy T) (init : T) (n : Option (node_t T))
    (d : T) (area : Int) : node_t T :=
  let m := match n with
    | none => node_t.fresh (p.join_region init area)
    | some m => m
  node_t.mk m.value
    (if m.pending then p.join_deltas m.delta d else d) true
    m.c0 m.c1 m.c2 m.c3

/-- `void update_delta(node_t *&n, int r1, int c1, int r2, int c2)`: the
push-down (resolve) step.  If the node is pending, apply the *member*
variable `delta` (parameter `md` here — the source reads `delta`, not
`n->delta`!) to the node's value over `rlen*clen` cells, and if that
(32-bit) area exceeds 1 push `md` into all four children, creating absent
ones.  In all cases the pending flag ends up cleared. -/
def update_delta_resolve (p : Policy T) (init md : T) (n : node_t T)
    (r1 c1 r2 c2 : Int) : node_t T :=
  let n' :=
    if n.pending then
      let rmid := (r1 + r2) / 2
      let cmid := (c1 + c2) / 2
      let rlen := r2 - r1 + 1
      let clen := c2 - c1 + 1
      let v' := p.join_value_with_delta n.value md (wrap32 (rlen * clen))
      if wrap32 (rlen * clen) > 1 then
        let rlen1 := rmid - r1 + 1
        let rlen2 := rlen - rlen1
        let clen1 := cmid - c1 + 1
        let clen2 := clen - clen1
        node_t.mk v' n.delta n.pending
          (some (update_delta_push p init n.c0 md (wrap32 (rlen1 * clen1))))
          (some (update_delta_push p init n.c1 md (wrap32 (rlen2 * clen1))))
          (some (update_delta_push p init n.c2 md (wrap32 (rlen1 * clen2))))
          (some (update_delta_push p init n.c3 md (wrap32 (rlen2 * clen2))))
      else
        node_t.mk v' n.delta n.pending n.c0 n.c1 n.c2 n.c3
    else n
  node_t.mk n'.value n'.delta false n'.c0 n'.c1 n'.c2 n'.c3

/-- `void update(node_t *&n, int r1, int c1, int r2, int c2)` (private).
Materialize an absent node (note: the source computes the creation area as
`(r2 - r1 + 1)*(c2 - r1 + 1)`, reusing `r1` where `c1` is expected — this
is embedded verbatim), resolve, then branch on the target rectangle
`(tr1, tc1, tr2, tc2)`: disjoint → return; contained → mark pending and
resolve immediately; otherwise recurse into the four quadrants and
recompute the value as the ordered join of the children's values. -/
def updateInner (p : Policy T) (init : T) (tr1 tc1 tr2 tc2 : Int) (md : T) :
    Nat → Option (node_t T) → Int → Int → Int → Int → node_t T
  | 0, n, r1, c1, r2, c2 =>
      (match n with
        | none => node_t.fresh (p.join_region init (wrap32 ((r2 - r1 + 1) * (c2 - r1 + 1))))
        | some m => m)
  | fuel + 1, n, r1, c1, r2, c2 =>
      let m := match n with
        | none => node_t.fresh (p.join_region init (wrap32 ((r2 - r1 + 1) * (c2 - r1 + 1))))
        | some m => m
      let m := update_delta_resolve p init md m r1 c1 r2 c2
      if tr2 < r1 ∨ tr1 > r2 ∨ tc2 < c1 ∨ tc1 > c2 then
        m
      else if tr1 ≤ r1 ∧ r2 ≤ tr2 ∧ tc1 ≤ c1 ∧ c2 ≤ tc2 then
        let m := node_t.mk m.value m.delta true m.c0 m.c1 m.c2 m.c3
        update_delta_resolve p init md m r1 c1 r2 c2
      else
        let rmid := (r1 + r2) / 2
        let cmid := (c1 + c2) / 2
        let m0 := updateInner p init tr1 tc1 tr2 tc2 md fuel m.c0 r1 c1 rmid cmid
        let m1 := updateInner p init tr1 tc1 tr2 tc2 md fuel m.c1 (rmid + 1) c1 r2 cmid
        let m2 := updateInner p init tr1 tc1 tr2 tc2 md fuel m.c2 r1 (cmid + 1) rmid c2
        let m3 := updateInner p init tr1 tc1 tr2 tc2 md fuel m.c3 (rmid + 1) (cmid + 1) r2 c2
        let v := p.join_values (p.join_values (p.join_values m0.value m1.value) m2.value) m3.value
        node_t.mk v m.delta m.pending (some m0) (some m1) (some m2) (some m3)

/-- `void query(node_t *n, int r1, int c1, int r2, int c2)` (private).
Returns the updated node (the traversal mutates the tree through resolve)
together with the accumulator `(found, res)`, modelled as `Option T`.
Disjoint → contribute nothing; absent → contribute
`join_region(init, overlap_area)`; present → resolve, then either
contribute the node's value (contained) or recurse into the four quadrants
in order, threading the accumulator. -/
def queryInner (p : Policy T) (init : T) (tr1 tc1 tr2 tc2 : Int) (md : T) :
    Nat → Option (node_t T) → Int → Int → Int → Int → Option T →
    Option (node_t T) × Option T
  | 0, n, _, _, _, _, acc => (n, acc)
  | fuel + 1, n, r1, c1, r2, c2, acc =>
      if tr2 < r1 ∨ tr1 > r2 ∨ tc2 < c1 ∨ tc1 > c2 then
        (n, acc)
      else
        match n with
        | none =>
            let rlen := min r2 tr2 - max r1 tr1 + 1
            let clen := min c2 tc2 - max c1 tc1 + 1
            let v := p.join_region init (wrap32 (rlen * clen))
            (none, some (match acc with
              | none => v
              | some a => p.join_values a v))
        | some m =>
            let m := update_delta_resolve p init md m r1 c1 r2 c2
            if tr1 ≤ r1 ∧ r2 ≤ tr2 ∧ tc1 ≤ c1 ∧ c2 ≤ tc2 then
              (some m, some (match acc with
                | none => m.value
                | some a => p.join_values a m.value))
            else
              let rmid := (r1 + r2) / 2
              let cmid := (c1 + c2) / 2
              let (m0, acc) := queryInner p init tr1 tc1 tr2 tc2 md fuel m.c0 r1 c1 rmid cmid acc
              let (m1, acc) := queryInner p init tr1 tc1 tr2 tc2 md fuel m.c1 (rmid + 1) c1 r2 cmid acc
              let (m2, acc) := queryInner p init tr1 tc1 tr2 tc2 md fuel m.c2 r1 (cmid + 1) rmid c2 acc
              let (m3, acc) := queryInner p init tr1 tc1 tr2 tc2 md fuel m.c3 (rmid + 1) (cmid + 1) r2 c2 acc
              (some (node_t.mk m.value m.delta m.pending m0 m1 m2 m3), acc)

/-- The persistent state of a `quadtree` object: the root (possibly
absent), the initial value, and the member variable `delta`, which retains
the delta of the most recent public `update` call (it is read by the
resolve step during later operations, including queries). -/
structure State (T : Type) where
  root : Option (node_t T)
  init : T
  mdelta : T

/-- `quadtree(const T &v = T())`: null root.  The member `delta` is
uninitialized in C++; it is only ever read while some node is pending,
which cannot happen before the first `update` call, so initializing it to
`v` is observationally faithful. -/
def construct (v : T) : State T := ⟨none, v, v⟩

/-- Fuel used by the public operations; ample for the root rectangle
`[0, 10^9] × [0, 10^9]` (see the fuel-insensitivity theorem). -/
def FUEL : Nat := 32

/-- `void update(int r1, int c1, int r2, int c2, const T &d)` with explicit
fuel. -/
def updateF (p : Policy T) (fuel : Nat) (s : State T)
    (r1 c1 r2 c2 : Int) (d : T) : State T :=
  ⟨some (updateInner p s.init r1 c1 r2 c2 d fuel s.root 0 0 MAXR MAXC),
   s.init, d⟩

/-- `void update(int r1, int c1, int r2, int c2, const T &d)`. -/
def update (p : Policy T) (s : State T) (r1 c1 r2 c2 : Int) (d : T) :
    State T :=
  updateF p FUEL s r1 c1 r2 c2 d

/-- `void update(int r, int c, const T &d)`: the single-cell form. -/
def updatePoint (p : Policy T) (s : State T) (r c : Int) (d : T) : State T :=
  update p s r c r c d

/-- `T query(int r1, int c1, int r2, int c2)` with explicit fuel; returns
the result together with the mutated tree. -/
def queryF (p : Policy T) (fuel : Nat) (s : State T)
    (r1 c1 r2 c2 : Int) : T × State T :=
  let (n, acc) := queryInner p s.init r1 c1 r2 c2 s.mdelta fuel s.root 0 0 MAXR MAXC none
  (match acc with
    | some a => a
    | none => p.join_region s.init (wrap32 ((r2 - r1 + 1) * (c2 - c1 + 1))),
   ⟨n, s.init, s.mdelta⟩)

/-- `T query(int r1, int c1, int r2, int c2)`. -/
def query (p : Policy T) (s : State T) (r1 c1 r2 c2 : Int) : T × State T :=
  queryF p FUEL s r1 c1 r2 c2

/-- `T at(int r, int c)`: the single-cell read. -/
def at_ (p : Policy T) (s : State T) (r c : Int) : T × State T :=
  query p s r c r c

/-! ### Auxiliary definitions used by the claim statements -/

/-- A policy whose `join_region` reports the area argument it receives and
whose `join_value_with_delta` reports its area argument; used to observe
which area quantities the code passes to these operations (the source
documents that the four operations are meant to be replaced by the user,
e.g. a "sum" policy uses `join_region(v, area) = v*area`). -/
def areaPolicy : Policy Int where
  join_values a b := min a b
  join_region _ area := area
  join_value_with_delta _ _ area := area
  join_deltas _ d2 := d2

/-- The value stored at the root node (the tree's `init` if the root is
absent). -/
def rootValue (s : State Int) : Int :=
  match s.root with
  | some n => n.value
  | none => s.init

/-- Cell `(r, c)` lies in the rectangle `[r1, r2] × [c1, c2]`. -/
def inRect (r1 c1 r2 c2 r c : Int) : Prop :=
  r1 ≤ r ∧ r ≤ r2 ∧ c1 ≤ c ∧ c ≤ c2

/-- The two rectangles have no cell in common. -/
def rectDisjoint (r1 c1 r2 c2 s1 d1 s2 d2 : Int) : Prop :=
  ∀ r c, inRect r1 c1 r2 c2 r c → ¬ inRect s1 d1 s2 d2 r c

/-! #### Scenario states for the locality counterexample

`update(0,0,1,1,7)` paints the 2×2 corner with 7 (leaving its four unit
cells lazily pending with delta 7), then `update(1,1,1,1,3)` — whose
target rectangle is disjoint from cell `(0,0)` — is run. -/

def locState0 : State Int := construct 0

def locState1 : State Int := update defaultPolicy locState0 0 0 1 1 7

def locState2 : State Int := update defaultPolicy locState1 1 1 1 1 3

/-! #### Scenario states for the reference scenario of the specification
(the example usage in the source's `main`). -/

def refT0 : State Int := construct 0

def refT1 : State Int := updatePoint defaultPolicy refT0 0 0 7

def refT2 : State Int := updatePoint defaultPolicy refT1 0 1 6

def refT3 : State Int := updatePoint defaultPolicy refT2 1 1 4

def refT4 : State Int := updatePoint defaultPolicy refT3 2 1 1

def refT5 : State Int := updatePoint defaultPolicy refT4 2 2 4

def refT6 : State Int := update defaultPolicy refT5 0 2 3 2 9

def refT7 : State Int := update defaultPolicy refT6 2 0 2 2 9

def refG00 : Int × State Int := at_ defaultPolicy refT7 0 0

def refG01 : Int × State Int := at_ defaultPolicy refG00.2 0 1

def refG02 : Int × State Int := at_ defaultPolicy refG01.2 0 2

def refG10 : Int × State Int := at_ defaultPolicy refG02.2 1 0

def refG11 : Int × State Int := at_ defaultPolicy refG10.2 1 1

def refG12 : Int × State Int := at_ defaultPolicy refG11.2 1 2

def refG20 : Int × State Int := at_ defaultPolicy refG12.2 2 0

def refG21 : Int × State Int := at_ defaultPolicy refG20.2 2 1

def refG22 : Int × State Int := at_ defaultPolicy refG21.2 2 2

def refQ1 : Int × State Int := query defaultPolicy refG22.2 0 0 0 1

def refQ2 : Int × State Int := query defaultPolicy refQ1.2 0 0 1 0

def refQ3 : Int × State Int := query defaultPolicy refQ2.2 1 1 2 2

def refQ4 : Int × State Int := query defaultPolicy refQ3.2 0 0 1000000000 1000000000

def refT8 : State Int := update defaultPolicy refQ4.2 0 500000000 0 500000000 (-100)

def refQ5 : Int × State Int := query defaultPolicy refT8 0 0 1000000000 1000000000

/-- A node that is pending with stored delta `7` (as left behind by an
earlier `update(..., 7)`), with value `0`. -/
def pendingNode7 : node_t Int := node_t.mk 0 7 true none none none none

/-- Termination measure of a recursion rectangle: the sum of the (clamped)
side-length defects.  Every recursive call at a partially overlapping
rectangle at least halves it. -/
def mu (r1 c1 r2 c2 : Int) : Nat := (r2 - r1).toNat + (c2 - c1).toNat

/-! ### Operation histories and the untouched-region invariant

Recursion rectangles reachable from the root `[0, MAXR] × [0, MAXC]`
always satisfy `r1 ≤ r2 + 1` and `c1 ≤ c2 + 1` (an empty side collapses
to `r1 = r2 + 1`, never further).  For such a rectangle:
* its *strip* is the nonempty box `[min r1 r2, r2] × [min c1 c2, c2]`
  (the rectangle itself when proper, the lower boundary line when a side
  is empty) — when a node is pending, its whole strip has been covered by
  past update targets;
* its *box* is `[min r1 r2, max r1 r2] × [min c1 c2, max c1 c2]` — when a
  node's value differs from `init` or it is pending, some box cell has
  been covered by a past update target.
A rectangle that overlaps a query target without being disjoint and is
coordinate-contained in it has its whole box inside the target, which is
what makes the box invariant sufficient for untouched-region queries. -/

def inStrip (r1 c1 r2 c2 r c : Int) : Prop :=
  min r1 r2 ≤ r ∧ r ≤ r2 ∧ min c1 c2 ≤ c ∧ c ≤ c2

def inBox (r1 c1 r2 c2 r c : Int) : Prop :=
  min r1 r2 ≤ r ∧ r ≤ max r1 r2 ∧ min c1 c2 ≤ c ∧ c ≤ max c1 c2

/-- The untouched-region invariant of a (sub)tree rooted at `n` over the
recursion rectangle `[r1, r2] × [c1, c2]`, relative to the set `TU` of
cells covered by past update targets: a node whose value differs from
`init` or which is pending has a touched box cell; a pending node's whole
strip is touched; and the four children satisfy the invariant over the
quadrant rectangles of the recursion. -/
def Inv (TU : Int → Int → Prop) (init : Int) :
    Option (node_t Int) → Int → Int → Int → Int → Prop
  | none, _, _, _, _ => True
  | some (node_t.mk v _ pend k0 k1 k2 k3), r1, c1, r2, c2 =>
      ((v ≠ init ∨ pend = true) → ∃ r c, inBox r1 c1 r2 c2 r c ∧ TU r c) ∧
      (pend = true → ∀ r c, inStrip r1 c1 r2 c2 r c → TU r c) ∧
      Inv TU init k0 r1 c1 ((r1 + r2) / 2) ((c1 + c2) / 2) ∧
      Inv TU init k1 ((r1 + r2) / 2 + 1) c1 r2 ((c1 + c2) / 2) ∧
      Inv TU init k2 r1 ((c1 + c2) / 2 + 1) ((r1 + r2) / 2) c2 ∧
      Inv TU init k3 ((r1 + r2) / 2 + 1) ((c1 + c2) / 2 + 1) r2 c2

/-- The accumulator of an untouched-region query: either still empty or
exactly `init`. -/
def goodAcc (init : Int) (o : Option Int) : Prop := o = none ∨ o = some init

/-- One public operation on the tree (the point forms `update(r,c,d)` and
`at(r,c)` are the degenerate rectangles `r1 = r2`, `c1 = c2`). -/
inductive Op : Type where
  | upd (r1 c1 r2 c2 d : Int) : Op
  | qry (r1 c1 r2 c2 : Int) : Op

/-- Run one operation on the tree (with the code's default policy). -/
def execOp (s : State Int) : Op → State Int
  | Op.upd r1 c1 r2 c2 d => update defaultPolicy s r1 c1 r2 c2 d
  | Op.qry r1 c1 r2 c2 => (query defaultPolicy s r1 c1 r2 c2).2

/-- Run a sequence of operations on the tree. -/
def exec (s : State Int) : List Op → State Int
  | [] => s
  | op :: ops => exec (execOp s op) ops

/-- The caller preconditions of one operation: well-ordered coordinates
within the global bounds. -/
def validOp : Op → Prop
  | Op.upd r1 c1 r2 c2 _ =>
      0 ≤ r1 ∧ r1 ≤ r2 ∧ r2 ≤ MAXR ∧ 0 ≤ c1 ∧ c1 ≤ c2 ∧ c2 ≤ MAXC
  | Op.qry r1 c1 r2 c2 =>
      0 ≤ r1 ∧ r1 ≤ r2 ∧ r2 ≤ MAXR ∧ 0 ≤ c1 ∧ c1 ≤ c2 ∧ c2 ≤ MAXC

/-- The operation writes the cell `(r, c)` (queries write nothing). -/
def opTouches : Op → Int → Int → Prop
  | Op.upd r1 c1 r2 c2 _, r, c => inRect r1 c1 r2 c2 r c
  | Op.qry _ _ _ _, _, _ => False

/-- The cell `(r, c)` has been updated by some operation of the history. -/
def touched (ops : List Op) (r c : Int) : Prop :=
  ∃ op ∈ ops, opTouches op r c

/-- One unfolding step of the private `update` recursion, with the
recursive occurrence abstracted as `rec`; `updateInner (fuel+1)` is
definitionally `updateBody` applied to `updateInner fuel`. -/
def updateBody (p : Policy T) (init : T) (tr1 tc1 tr2 tc2 : Int) (md : T)
    (rec : Option (node_t T) → Int → Int → Int → Int → node_t T)
    (n : Option (node_t T)) (r1 c1 r2 c2 : Int) : node_t T :=
  let m := match n with
    | none => node_t.fresh (p.join_region init (wrap32 ((r2 - r1 + 1) * (c2 - r1 + 1))))
    | some m => m
  let m := update_delta_resolve p init md m r1 c1 r2 c2
  if tr2 < r1 ∨ tr1 > r2 ∨ tc2 < c1 ∨ tc1 > c2 then
    m
  else if tr1 ≤ r1 ∧ r2 ≤ tr2 ∧ tc1 ≤ c1 ∧ c2 ≤ tc2 then
    update_delta_resolve p init md (node_t.mk m.value m.delta true m.c0 m.c1 m.c2 m.c3) r1 c1 r2 c2
  else
    let rmid := (r1 + r2) / 2
    let cmid := (c1 + c2) / 2
    let m0 := rec m.c0 r1 c1 rmid cmid
    let m1 := rec m.c1 (rmid + 1) c1 r2 cmid
    let m2 := rec m.c2 r1 (cmid + 1) rmid c2
    let m3 := rec m.c3 (rmid + 1) (cmid + 1) r2 c2
    let v := p.join_values (p.join_values (p.join_values m0.value m1.value) m2.value) m3.value
    node_t.mk v m.delta m.pending (some m0) (some m1) (some m2) (some m3)

/-- One unfolding step of the private `query` recursion, with the
recursive occurrence abstracted as `rec`. -/
def queryBody (p : Policy T) (init : T) (tr1 tc1 tr2 tc2 : Int) (md : T)
    (rec : Option (node_t T) → Int → Int → Int → Int → Option T →
      Option (node_t T) × Option T)
    (n : Option (node_t T)) (r1 c1 r2 c2 : Int) (acc : Option T) :
    Option (node_t T) × Option T :=
  if tr2 < r1 ∨ tr1 > r2 ∨ tc2 < c1 ∨ tc1 > c2 then
    (n, acc)
  else
    match n with
    | none =>
        let rlen := min r2 tr2 - max r1 tr1 + 1
        let clen := min c2 tc2 - max c1 tc1 + 1
        let v := p.join_region init (wrap32 (rlen * clen))
        (none, some (match acc with
          | none => v
          | some a => p.join_values a v))
    | some m =>
        let m := update_delta_resolve p init md m r1 c1 r2 c2
        if tr1 ≤ r1 ∧ r2 ≤ tr2 ∧ tc1 ≤ c1 ∧ c2 ≤ tc2 then
          (some m, some (match acc with
            | none => m.value
            | some a => p.join_values a m.value))
        else
          let rmid := (r1 + r2) / 2
          let cmid := (c1 + c2) / 2
          let (m0, acc) := rec m.c0 r1 c1 rmid cmid acc
          let (m1, acc) := rec m.c1 (rmid + 1) c1 r2 cmid acc
          let (m2, acc) := rec m.c2 r1 (cmid + 1) rmid c2 acc
          let (m3, acc) := rec m.c3 (rmid + 1) (cmid + 1) r2 c2 acc
          (some (node_t.mk m.value m.delta m.pending m0 m1 m2 m3), acc)

/-! ## General lemmas about the embedded operations -/

theorem resolve_pending_false (p : Policy T) (init md : T) (n : node_t T)
    (r1 c1 r2 c2 : Int) :
    (update_delta_resolve p init md n r1 c1 r2 c2).pending = false :=
  rfl

theorem resolve_of_not_pending (p : Policy T) (init md : T) (n : node_t T)
    (r1 c1 r2 c2 : Int) (h : n.pending = false) :
    update_delta_resolve p init md n r1 c1 r2 c2 = n := by
  cases n with
  | mk v d pend k0 k1 k2 k3 =>
    simp only [node_t.pending] at h
    subst h
    simp [update_delta_resolve, node_t.pending, node_t.value, node_t.delta,
      node_t.c0, node_t.c1, node_t.c2, node_t.c3]

theorem push_default_none (init dd a : Int) :
    update_delta_push defaultPolicy init none dd a =
      node_t.mk init dd true none none none none :=
  rfl

theorem push_default_some (init dd a : Int) (m : node_t Int) :
    update_delta_push defaultPolicy init (some m) dd a =
      node_t.mk m.value dd true m.c0 m.c1 m.c2 m.c3 := by
  cases m with
  | mk v d pend k0 k1 k2 k3 =>
    simp [update_delta_push, defaultPolicy, node_t.pending, node_t.value,
      node_t.delta, node_t.c0, node_t.c1, node_t.c2, node_t.c3]

theorem push_default_idem (init dd a a' : Int) (k : Option (node_t Int)) :
    update_delta_push defaultPolicy init
      (some (update_delta_push defaultPolicy init k dd a)) dd a' =
      update_delta_push defaultPolicy init k dd a := by
  cases k with
  | none =>
    rw [push_default_none, push_default_some]
    rfl
  | some m =>
    rw [push_default_some, push_default_some]
    rfl

theorem resolve_default_true (init md v d : Int)
    (k0 k1 k2 k3 : Option (node_t Int)) (r1 c1 r2 c2 : Int) :
    update_delta_resolve defaultPolicy init md
      (node_t.mk v d true k0 k1 k2 k3) r1 c1 r2 c2 =
      if wrap32 ((r2 - r1 + 1) * (c2 - c1 + 1)) > 1 then
        node_t.mk md d false
          (some (update_delta_push defaultPolicy init k0 md
            (wrap32 (((r1 + r2) / 2 - r1 + 1) * ((c1 + c2) / 2 - c1 + 1)))))
          (some (update_delta_push defaultPolicy init k1 md
            (wrap32 ((r2 - r1 + 1 - ((r1 + r2) / 2 - r1 + 1)) * ((c1 + c2) / 2 - c1 + 1)))))
          (some (update_delta_push defaultPolicy init k2 md
            (wrap32 (((r1 + r2) / 2 - r1 + 1) * (c2 - c1 + 1 - ((c1 + c2) / 2 - c1 + 1))))))
          (some (update_delta_push defaultPolicy init k3 md
            (wrap32 ((r2 - r1 + 1 - ((r1 + r2) / 2 - r1 + 1)) * (c2 - c1 + 1 - ((c1 + c2) / 2 - c1 + 1))))))
      else
        node_t.mk md d false k0 k1 k2 k3 := by
  by_cases h : wrap32 ((r2 - r1 + 1) * (c2 - c1 + 1)) > 1 <;>
    simp [update_delta_resolve, node_t.pending, node_t.value, node_t.delta,
      node_t.c0, node_t.c1, node_t.c2, node_t.c3, defaultPolicy, h]

theorem contained_step_idem (init md : Int) (m : node_t Int)
    (r1 c1 r2 c2 : Int) :
    update_delta_resolve defaultPolicy init md
      (node_t.mk
        (update_delta_resolve defaultPolicy init md
          (node_t.mk m.value m.delta true m.c0 m.c1 m.c2 m.c3) r1 c1 r2 c2).value
        (update_delta_resolve defaultPolicy init md
          (node_t.mk m.value m.delta true m.c0 m.c1 m.c2 m.c3) r1 c1 r2 c2).delta
        true
        (update_delta_resolve defaultPolicy init md
          (node_t.mk m.value m.delta true m.c0 m.c1 m.c2 m.c3) r1 c1 r2 c2).c0
        (update_delta_resolve defaultPolicy init md
          (node_t.mk m.value m.delta true m.c0 m.c1 m.c2 m.c3) r1 c1 r2 c2).c1
        (update_delta_resolve defaultPolicy init md
          (node_t.mk m.value m.delta true m.c0 m.c1 m.c2 m.c3) r1 c1 r2 c2).c2
        (update_delta_resolve defaultPolicy init md
          (node_t.mk m.value m.delta true m.c0 m.c1 m.c2 m.c3) r1 c1 r2 c2).c3)
      r1 c1 r2 c2 =
    update_delta_resolve defaultPolicy init md
      (node_t.mk m.value m.delta true m.c0 m.c1 m.c2 m.c3) r1 c1 r2 c2 := by
  by_cases h : wrap32 ((r2 - r1 + 1) * (c2 - c1 + 1)) > 1
  · have hin := resolve_default_true init md m.value m.delta m.c0 m.c1 m.c2 m.c3 r1 c1 r2 c2
    rw [if_pos h] at hin
    rw [hin]
    simp only [node_t.value, node_t.delta, node_t.c0, node_t.c1, node_t.c2, node_t.c3]
    rw [resolve_default_true, if_pos h]
    rw [push_default_idem, push_default_idem, push_default_idem, push_default_idem]
  · have hin := resolve_default_true init md m.value m.delta m.c0 m.c1 m.c2 m.c3 r1 c1 r2 c2
    rw [if_neg h] at hin
    rw [hin]
    simp only [node_t.value, node_t.delta, node_t.c0, node_t.c1, node_t.c2, node_t.c3]
    rw [resolve_default_true, if_neg h]

theorem resolve_mk_of_resolve_pending (p : Policy T) (init md md₂ v d : T)
    (y : node_t T) (a1 a2 a3 a4 b1 b2 b3 b4 : Int)
    (k0 k1 k2 k3 : Option (node_t T)) :
    update_delta_resolve p init md
      (node_t.mk v d ((update_delta_resolve p init md₂ y a1 a2 a3 a4).pending)
        k0 k1 k2 k3) b1 b2 b3 b4 =
      node_t.mk v d ((update_delta_resolve p init md₂ y a1 a2 a3 a4).pending)
        k0 k1 k2 k3 :=
  resolve_of_not_pending _ _ _ _ _ _ _ _ rfl

theorem updateInner_idem_default (init tr1 tc1 tr2 tc2 dd : Int) :
    ∀ (fuel : Nat) (n : Option (node_t Int)) (r1 c1 r2 c2 : Int),
      updateInner defaultPolicy init tr1 tc1 tr2 tc2 dd fuel
        (some (updateInner defaultPolicy init tr1 tc1 tr2 tc2 dd fuel n r1 c1 r2 c2))
        r1 c1 r2 c2 =
      updateInner defaultPolicy init tr1 tc1 tr2 tc2 dd fuel n r1 c1 r2 c2 := by
  intro fuel
  induction fuel with
  | zero => intro n r1 c1 r2 c2; rfl
  | succ f ih =>
    intro n r1 c1 r2 c2
    by_cases hd : tr2 < r1 ∨ tr1 > r2 ∨ tc2 < c1 ∨ tc1 > c2
    · simp only [updateInner, if_pos hd]
      exact resolve_of_not_pending _ _ _ _ _ _ _ _
        (resolve_pending_false _ _ _ _ _ _ _ _)
    · by_cases hc : tr1 ≤ r1 ∧ r2 ≤ tr2 ∧ tc1 ≤ c1 ∧ c2 ≤ tc2
      · simp only [updateInner, if_neg hd, if_pos hc]
        rw [resolve_of_not_pending _ _ _ _ _ _ _ _
          (resolve_pending_false _ _ _ _ _ _ _ _)]
        exact contained_step_idem init dd _ r1 c1 r2 c2
      · simp only [updateInner, if_neg hd, if_neg hc]
        rw [resolve_mk_of_resolve_pending]
        simp only [node_t.c0, node_t.c1, node_t.c2, node_t.c3, node_t.delta,
          node_t.pending]
        rw [ih, ih, ih, ih]

/-! ### Fuel insensitivity: the recursion reaches a base case on every
path, so any fuel beyond the measure's logarithm gives the same result. -/

theorem updateInner_succ_eq (p : Policy T) (init : T) (tr1 tc1 tr2 tc2 : Int)
    (md : T) (f : Nat) (n : Option (node_t T)) (r1 c1 r2 c2 : Int) :
    updateInner p init tr1 tc1 tr2 tc2 md (f + 1) n r1 c1 r2 c2 =
      updateBody p init tr1 tc1 tr2 tc2 md
        (updateInner p init tr1 tc1 tr2 tc2 md f) n r1 c1 r2 c2 :=
  rfl

theorem queryInner_succ_eq (p : Policy T) (init : T) (tr1 tc1 tr2 tc2 : Int)
    (md : T) (f : Nat) (n : Option (node_t T)) (r1 c1 r2 c2 : Int)
    (acc : Option T) :
    queryInner p init tr1 tc1 tr2 tc2 md (f + 1) n r1 c1 r2 c2 acc =
      queryBody p init tr1 tc1 tr2 tc2 md
        (queryInner p init tr1 tc1 tr2 tc2 md f) n r1 c1 r2 c2 acc :=
  rfl

theorem mu_child0 (r1 c1 r2 c2 : Int) :
    mu r1 c1 ((r1 + r2) / 2) ((c1 + c2) / 2) ≤ mu r1 c1 r2 c2 / 2 := by
  simp only [mu]
  omega

theorem mu_child1 (r1 c1 r2 c2 : Int) :
    mu ((r1 + r2) / 2 + 1) c1 r2 ((c1 + c2) / 2) ≤ mu r1 c1 r2 c2 / 2 := by
  simp only [mu]
  omega

theorem mu_child2 (r1 c1 r2 c2 : Int) :
    mu r1 ((c1 + c2) / 2 + 1) ((r1 + r2) / 2) c2 ≤ mu r1 c1 r2 c2 / 2 := by
  simp only [mu]
  omega

theorem mu_child3 (r1 c1 r2 c2 : Int) :
    mu ((r1 + r2) / 2 + 1) ((c1 + c2) / 2 + 1) r2 c2 ≤ mu r1 c1 r2 c2 / 2 := by
  simp only [mu]
  omega

/-- A rectangle that overlaps the target without being contained in it has
a proper side, so its measure is positive: degenerate and inverted
rectangles always hit the disjoint or the contained base case. -/
theorem partial_imp_mu_pos (tr1 tc1 tr2 tc2 r1 c1 r2 c2 : Int)
    (hd : ¬ (tr2 < r1 ∨ tr1 > r2 ∨ tc2 < c1 ∨ tc1 > c2))
    (hc : ¬ (tr1 ≤ r1 ∧ r2 ≤ tr2 ∧ tc1 ≤ c1 ∧ c2 ≤ tc2)) :
    0 < mu r1 c1 r2 c2 := by
  simp only [mu]
  omega

theorem updateBody_congr (p : Policy T) (init : T) (tr1 tc1 tr2 tc2 : Int)
    (md : T) (rec rec' : Option (node_t T) → Int → Int → Int → Int → node_t T)
    (n : Option (node_t T)) (r1 c1 r2 c2 : Int)
    (h : ¬ (tr2 < r1 ∨ tr1 > r2 ∨ tc2 < c1 ∨ tc1 > c2) →
         ¬ (tr1 ≤ r1 ∧ r2 ≤ tr2 ∧ tc1 ≤ c1 ∧ c2 ≤ tc2) →
         ∀ (n' : Option (node_t T)) (a1 b1 a2 b2 : Int),
           mu a1 b1 a2 b2 ≤ mu r1 c1 r2 c2 / 2 →
           rec n' a1 b1 a2 b2 = rec' n' a1 b1 a2 b2) :
    updateBody p init tr1 tc1 tr2 tc2 md rec n r1 c1 r2 c2 =
      updateBody p init tr1 tc1 tr2 tc2 md rec' n r1 c1 r2 c2 := by
  by_cases hd : tr2 < r1 ∨ tr1 > r2 ∨ tc2 < c1 ∨ tc1 > c2
  · simp only [updateBody, if_pos hd]
  · by_cases hc : tr1 ≤ r1 ∧ r2 ≤ tr2 ∧ tc1 ≤ c1 ∧ c2 ≤ tc2
    · simp only [updateBody, if_neg hd, if_pos hc]
    · simp only [updateBody, if_neg hd, if_neg hc]
      rw [h hd hc _ _ _ _ _ (mu_child0 r1 c1 r2 c2),
          h hd hc _ _ _ _ _ (mu_child1 r1 c1 r2 c2),
          h hd hc _ _ _ _ _ (mu_child2 r1 c1 r2 c2),
          h hd hc _ _ _ _ _ (mu_child3 r1 c1 r2 c2)]

theorem queryBody_congr (p : Policy T) (init : T) (tr1 tc1 tr2 tc2 : Int)
    (md : T)
    (rec rec' : Option (node_t T) → Int → Int → Int → Int → Option T →
      Option (node_t T) × Option T)
    (n : Option (node_t T)) (r1 c1 r2 c2 : Int) (acc : Option T)
    (h : ¬ (tr2 < r1 ∨ tr1 > r2 ∨ tc2 < c1 ∨ tc1 > c2) →
         ¬ (tr1 ≤ r1 ∧ r2 ≤ tr2 ∧ tc1 ≤ c1 ∧ c2 ≤ tc2) →
         ∀ (n' : Option (node_t T)) (a1 b1 a2 b2 : Int) (acc' : Option T),
           mu a1 b1 a2 b2 ≤ mu r1 c1 r2 c2 / 2 →
           rec n' a1 b1 a2 b2 acc' = rec' n' a1 b1 a2 b2 acc') :
    queryBody p init tr1 tc1 tr2 tc2 md rec n r1 c1 r2 c2 acc =
      queryBody p init tr1 tc1 tr2 tc2 md rec' n r1 c1 r2 c2 acc := by
  by_cases hd : tr2 < r1 ∨ tr1 > r2 ∨ tc2 < c1 ∨ tc1 > c2
  · simp only [queryBody, if_pos hd]
  · cases n with
    | none => simp only [queryBody, if_neg hd]
    | some m =>
      by_cases hc : tr1 ≤ r1 ∧ r2 ≤ tr2 ∧ tc1 ≤ c1 ∧ c2 ≤ tc2
      · simp only [queryBody, if_neg hd, if_pos hc]
      · simp only [queryBody, if_neg hd, if_neg hc]
        rw [h hd hc _ _ _ _ _ _ (mu_child0 r1 c1 r2 c2),
            h hd hc _ _ _ _ _ _ (mu_child1 r1 c1 r2 c2),
            h hd hc _ _ _ _ _ _ (mu_child2 r1 c1 r2 c2),
            h hd hc _ _ _ _ _ _ (mu_child3 r1 c1 r2 c2)]

theorem updateInner_fuel_stable (p : Policy T) (init : T)
    (tr1 tc1 tr2 tc2 : Int) (md : T) :
    ∀ (f g : Nat) (n : Option (node_t T)) (r1 c1 r2 c2 : Int),
      mu r1 c1 r2 c2 < 2 ^ f → mu r1 c1 r2 c2 < 2 ^ g →
      updateInner p init tr1 tc1 tr2 tc2 md (f + 1) n r1 c1 r2 c2 =
        updateInner p init tr1 tc1 tr2 tc2 md (g + 1) n r1 c1 r2 c2 := by
  intro f
  induction f with
  | zero =>
    intro g n r1 c1 r2 c2 hf hg
    cases g with
    | zero => rfl
    | succ g' =>
      rw [updateInner_succ_eq, updateInner_succ_eq]
      apply updateBody_congr
      intro hd hc
      exact absurd (partial_imp_mu_pos tr1 tc1 tr2 tc2 r1 c1 r2 c2 hd hc)
        (by omega)
  | succ f' ihf =>
    intro g n r1 c1 r2 c2 hf hg
    cases g with
    | zero =>
      rw [updateInner_succ_eq, updateInner_succ_eq]
      apply updateBody_congr
      intro hd hc
      exact absurd (partial_imp_mu_pos tr1 tc1 tr2 tc2 r1 c1 r2 c2 hd hc)
        (by omega)
    | succ g' =>
      rw [updateInner_succ_eq, updateInner_succ_eq]
      apply updateBody_congr
      intro hd hc n' a1 b1 a2 b2 hb
      have hp2f : (2 : Nat) ^ (f' + 1) = 2 * 2 ^ f' := by ring
      have hp2g : (2 : Nat) ^ (g' + 1) = 2 * 2 ^ g' := by ring
      exact ihf g' n' a1 b1 a2 b2 (by omega) (by omega)

theorem queryInner_fuel_stable (p : Policy T) (init : T)
    (tr1 tc1 tr2 tc2 : Int) (md : T) :
    ∀ (f g : Nat) (n : Option (node_t T)) (r1 c1 r2 c2 : Int) (acc : Option T),
      mu r1 c1 r2 c2 < 2 ^ f → mu r1 c1 r2 c2 < 2 ^ g →
      queryInner p init tr1 tc1 tr2 tc2 md (f + 1) n r1 c1 r2 c2 acc =
        queryInner p init tr1 tc1 tr2 tc2 md (g + 1) n r1 c1 r2 c2 acc := by
  intro f
  induction f with
  | zero =>
    intro g n r1 c1 r2 c2 acc hf hg
    cases g with
    | zero => rfl
    | succ g' =>
      rw [queryInner_succ_eq, queryInner_succ_eq]
      apply queryBody_congr
      intro hd hc
      exact absurd (partial_imp_mu_pos tr1 tc1 tr2 tc2 r1 c1 r2 c2 hd hc)
        (by omega)
  | succ f' ihf =>
    intro g n r1 c1 r2 c2 acc hf hg
    cases g with
    | zero =>
      rw [queryInner_succ_eq, queryInner_succ_eq]
      apply queryBody_congr
      intro hd hc
      exact absurd (partial_imp_mu_pos tr1 tc1 tr2 tc2 r1 c1 r2 c2 hd hc)
        (by omega)
    | succ g' =>
      rw [queryInner_succ_eq, queryInner_succ_eq]
      apply queryBody_congr
      intro hd hc n' a1 b1 a2 b2 acc' hb
      have hp2f : (2 : Nat) ^ (f' + 1) = 2 * 2 ^ f' := by ring
      have hp2g : (2 : Nat) ^ (g' + 1) = 2 * 2 ^ g' := by ring
      exact ihf g' n' a1 b1 a2 b2 acc' (by omega) (by omega)

/-- The measure of the root rectangle is `2·10^9 < 2^31`, so `FUEL = 32`
units of fuel suffice and any larger amount gives identical results. -/
theorem root_mu_lt : mu 0 0 MAXR MAXC < 2 ^ 31 := by
  simp only [mu, MAXR, MAXC]
  decide

theorem updateF_fuel_stable (p : Policy T) (s : State T)
    (r1 c1 r2 c2 : Int) (d : T) (f : Nat) (hf : FUEL ≤ f) :
    updateF p f s r1 c1 r2 c2 d = update p s r1 c1 r2 c2 d := by
  obtain ⟨f', rfl⟩ : ∃ f', f = f' + 1 := ⟨f - 1, by simp only [FUEL] at hf; omega⟩
  have h31 : mu 0 0 MAXR MAXC < 2 ^ f' := by
    calc mu 0 0 MAXR MAXC < 2 ^ 31 := root_mu_lt
    _ ≤ 2 ^ f' := Nat.pow_le_pow_right (by omega) (by simp only [FUEL] at hf; omega)
  simp only [update, updateF, FUEL]
  rw [updateInner_fuel_stable p s.init r1 c1 r2 c2 d f' 31 s.root 0 0 MAXR MAXC
    h31 root_mu_lt]

theorem queryF_fuel_stable (p : Policy T) (s : State T)
    (r1 c1 r2 c2 : Int) (f : Nat) (hf : FUEL ≤ f) :
    queryF p f s r1 c1 r2 c2 = query p s r1 c1 r2 c2 := by
  obtain ⟨f', rfl⟩ : ∃ f', f = f' + 1 := ⟨f - 1, by simp only [FUEL] at hf; omega⟩
  have h31 : mu 0 0 MAXR MAXC < 2 ^ f' := by
    calc mu 0 0 MAXR MAXC < 2 ^ 31 := root_mu_lt
    _ ≤ 2 ^ f' := Nat.pow_le_pow_right (by omega) (by simp only [FUEL] at hf; omega)
  simp only [query, queryF, FUEL]
  rw [queryInner_fuel_stable p s.init r1 c1 r2 c2 s.mdelta f' 31 s.root 0 0
    MAXR MAXC none h31 root_mu_lt]

/-! ### The untouched-region invariant: arithmetic facts -/

theorem strip_nonempty (r1 c1 r2 c2 : Int) :
    inStrip r1 c1 r2 c2 (min r1 r2) (min c1 c2) := by
  simp only [inStrip]
  omega

theorem strip_sub_box (r1 c1 r2 c2 r c : Int)
    (h : inStrip r1 c1 r2 c2 r c) : inBox r1 c1 r2 c2 r c := by
  simp only [inStrip, inBox] at *
  omega

/-- A valid target rectangle that is not disjoint from a recursion
rectangle meets its strip. -/
theorem strip_meet (tr1 tc1 tr2 tc2 r1 c1 r2 c2 : Int)
    (htr : tr1 ≤ tr2) (htc : tc1 ≤ tc2)
    (hd : ¬ (tr2 < r1 ∨ tr1 > r2 ∨ tc2 < c1 ∨ tc1 > c2)) :
    ∃ r c, inStrip r1 c1 r2 c2 r c ∧ inRect tr1 tc1 tr2 tc2 r c := by
  refine ⟨max (min r1 r2) tr1, max (min c1 c2) tc1, ?_, ?_⟩ <;>
    simp only [inStrip, inRect] <;> omega

/-- A non-disjoint, coordinate-contained recursion rectangle has its whole
box inside the target. -/
theorem box_sub_contained (tr1 tc1 tr2 tc2 r1 c1 r2 c2 r c : Int)
    (hd : ¬ (tr2 < r1 ∨ tr1 > r2 ∨ tc2 < c1 ∨ tc1 > c2))
    (hc : tr1 ≤ r1 ∧ r2 ≤ tr2 ∧ tc1 ≤ c1 ∧ c2 ≤ tc2)
    (h : inBox r1 c1 r2 c2 r c) : inRect tr1 tc1 tr2 tc2 r c := by
  simp only [inBox, inRect] at *
  omega

theorem strip_sub_contained (tr1 tc1 tr2 tc2 r1 c1 r2 c2 r c : Int)
    (hd : ¬ (tr2 < r1 ∨ tr1 > r2 ∨ tc2 < c1 ∨ tc1 > c2))
    (hc : tr1 ≤ r1 ∧ r2 ≤ tr2 ∧ tc1 ≤ c1 ∧ c2 ≤ tc2)
    (h : inStrip r1 c1 r2 c2 r c) : inRect tr1 tc1 tr2 tc2 r c :=
  box_sub_contained tr1 tc1 tr2 tc2 r1 c1 r2 c2 r c hd hc
    (strip_sub_box r1 c1 r2 c2 r c h)

/-- Quadrant rectangles of a reachable rectangle are reachable: an empty
side collapses to exactly one past the end and never further. -/
theorem rectOK_children (r1 c1 r2 c2 : Int)
    (h1 : r1 ≤ r2 + 1) (h2 : c1 ≤ c2 + 1) :
    r1 ≤ (r1 + r2) / 2 + 1 ∧ (r1 + r2) / 2 + 1 ≤ r2 + 1 ∧
    c1 ≤ (c1 + c2) / 2 + 1 ∧ (c1 + c2) / 2 + 1 ≤ c2 + 1 := by
  omega

theorem strip_child0_sub (r1 c1 r2 c2 r c : Int)
    (h1 : r1 ≤ r2 + 1) (h2 : c1 ≤ c2 + 1)
    (h : inStrip r1 c1 ((r1 + r2) / 2) ((c1 + c2) / 2) r c) :
    inStrip r1 c1 r2 c2 r c := by
  simp only [inStrip] at *
  omega

theorem strip_child1_sub (r1 c1 r2 c2 r c : Int)
    (h1 : r1 ≤ r2 + 1) (h2 : c1 ≤ c2 + 1)
    (h : inStrip ((r1 + r2) / 2 + 1) c1 r2 ((c1 + c2) / 2) r c) :
    inStrip r1 c1 r2 c2 r c := by
  simp only [inStrip] at *
  omega

theorem strip_child2_sub (r1 c1 r2 c2 r c : Int)
    (h1 : r1 ≤ r2 + 1) (h2 : c1 ≤ c2 + 1)
    (h : inStrip r1 ((c1 + c2) / 2 + 1) ((r1 + r2) / 2) c2 r c) :
    inStrip r1 c1 r2 c2 r c := by
  simp only [inStrip] at *
  omega

theorem strip_child3_sub (r1 c1 r2 c2 r c : Int)
    (h1 : r1 ≤ r2 + 1) (h2 : c1 ≤ c2 + 1)
    (h : inStrip ((r1 + r2) / 2 + 1) ((c1 + c2) / 2 + 1) r2 c2 r c) :
    inStrip r1 c1 r2 c2 r c := by
  simp only [inStrip] at *
  omega

/-! ### The untouched-region invariant: preservation -/

theorem Inv_mono (init : Int) (TU TU' : Int → Int → Prop)
    (hsub : ∀ r c, TU r c → TU' r c) :
    ∀ (n : Option (node_t Int)) (r1 c1 r2 c2 : Int),
      Inv TU init n r1 c1 r2 c2 → Inv TU' init n r1 c1 r2 c2
  | none, _, _, _, _, _ => by simp only [Inv]
  | some (node_t.mk v d pend k0 k1 k2 k3), r1, c1, r2, c2, h => by
    simp only [Inv] at h ⊢
    refine ⟨fun hp => ?_, fun hp r c hs => hsub _ _ (h.2.1 hp r c hs),
      Inv_mono init TU TU' hsub k0 _ _ _ _ h.2.2.1,
      Inv_mono init TU TU' hsub k1 _ _ _ _ h.2.2.2.1,
      Inv_mono init TU TU' hsub k2 _ _ _ _ h.2.2.2.2.1,
      Inv_mono init TU TU' hsub k3 _ _ _ _ h.2.2.2.2.2⟩
    obtain ⟨r, c, hb, ht⟩ := h.1 hp
    exact ⟨r, c, hb, hsub _ _ ht⟩

/-- Marking a node pending preserves the invariant provided its whole
strip is touched. -/
theorem Inv_push (TU : Int → Int → Prop) (init md a : Int)
    (k : Option (node_t Int)) (r1 c1 r2 c2 : Int)
    (hstrip : ∀ r c, inStrip r1 c1 r2 c2 r c → TU r c)
    (hk : Inv TU init k r1 c1 r2 c2) :
    Inv TU init (some (update_delta_push defaultPolicy init k md a))
      r1 c1 r2 c2 := by
  have hwit : ∃ r c, inBox r1 c1 r2 c2 r c ∧ TU r c :=
    ⟨min r1 r2, min c1 c2,
      strip_sub_box _ _ _ _ _ _ (strip_nonempty r1 c1 r2 c2),
      hstrip _ _ (strip_nonempty r1 c1 r2 c2)⟩
  cases k with
  | none =>
    rw [push_default_none]
    simp only [Inv]
    exact ⟨fun _ => hwit, fun _ => hstrip, trivial, trivial, trivial, trivial⟩
  | some m =>
    cases m with
    | mk v d pend k0 k1 k2 k3 =>
      rw [push_default_some]
      simp only [Inv, node_t.value, node_t.c0, node_t.c1, node_t.c2,
        node_t.c3] at hk ⊢
      exact ⟨fun _ => hwit, fun _ => hstrip, hk.2.2.1, hk.2.2.2.1,
        hk.2.2.2.2.1, hk.2.2.2.2.2⟩

/-- The push-down (resolve) step preserves the invariant (with the code's
default policy, for reachable rectangles, under any member delta). -/
theorem Inv_resolve (TU : Int → Int → Prop) (init md : Int)
    (n : node_t Int) (r1 c1 r2 c2 : Int)
    (hOK1 : r1 ≤ r2 + 1) (hOK2 : c1 ≤ c2 + 1)
    (h : Inv TU init (some n) r1 c1 r2 c2) :
    Inv TU init
      (some (update_delta_resolve defaultPolicy init md n r1 c1 r2 c2))
      r1 c1 r2 c2 := by
  cases n with
  | mk v d pend k0 k1 k2 k3 =>
    cases pend with
    | false =>
      rw [resolve_of_not_pending defaultPolicy init md
        (node_t.mk v d false k0 k1 k2 k3) r1 c1 r2 c2 rfl]
      exact h
    | true =>
      simp only [Inv] at h
      obtain ⟨h1, h2, hk0, hk1, hk2, hk3⟩ := h
      have hstrip := h2 trivial
      have hbox := h1 (Or.inr trivial)
      rw [resolve_default_true]
      split
      · simp only [Inv]
        obtain ⟨hok0, hok1, hok2, hok3⟩ := rectOK_children r1 c1 r2 c2 hOK1 hOK2
        refine ⟨fun _ => hbox, fun hp => absurd hp Bool.false_ne_true,
          ?_, ?_, ?_, ?_⟩
        · exact Inv_push TU init md _ k0 _ _ _ _
            (fun r c hs => hstrip r c (strip_child0_sub r1 c1 r2 c2 r c hOK1 hOK2 hs)) hk0
        · exact Inv_push TU init md _ k1 _ _ _ _
            (fun r c hs => hstrip r c (strip_child1_sub r1 c1 r2 c2 r c hOK1 hOK2 hs)) hk1
        · exact Inv_push TU init md _ k2 _ _ _ _
            (fun r c hs => hstrip r c (strip_child2_sub r1 c1 r2 c2 r c hOK1 hOK2 hs)) hk2
        · exact Inv_push TU init md _ k3 _ _ _ _
            (fun r c hs => hstrip r c (strip_child3_sub r1 c1 r2 c2 r c hOK1 hOK2 hs)) hk3
      · simp only [Inv]
        exact ⟨fun _ => hbox, fun hp => absurd hp Bool.false_ne_true,
          hk0, hk1, hk2, hk3⟩

/-- Marking a node pending (the contained case of `update`) preserves the
invariant provided the whole strip is touched. -/
theorem Inv_set_pending (TU : Int → Int → Prop) (init : Int)
    (m : node_t Int) (r1 c1 r2 c2 : Int)
    (hstrip : ∀ r c, inStrip r1 c1 r2 c2 r c → TU r c)
    (h : Inv TU init (some m) r1 c1 r2 c2) :
    Inv TU init
      (some (node_t.mk m.value m.delta true m.c0 m.c1 m.c2 m.c3))
      r1 c1 r2 c2 := by
  have hwit : ∃ r c, inBox r1 c1 r2 c2 r c ∧ TU r c :=
    ⟨min r1 r2, min c1 c2,
      strip_sub_box _ _ _ _ _ _ (strip_nonempty r1 c1 r2 c2),
      hstrip _ _ (strip_nonempty r1 c1 r2 c2)⟩
  cases m with
  | mk v d pend k0 k1 k2 k3 =>
    simp only [Inv, node_t.value, node_t.delta, node_t.c0, node_t.c1,
      node_t.c2, node_t.c3] at h ⊢
    exact ⟨fun _ => hwit, fun _ => hstrip, h.2.2.1, h.2.2.2.1,
      h.2.2.2.2.1, h.2.2.2.2.2⟩

/-- Freshly created nodes are virgin: value `init` (the default
`join_region` ignores the area), not pending, childless. -/
theorem Inv_fresh (TU : Int → Int → Prop) (init x : Int) (r1 c1 r2 c2 : Int) :
    Inv TU init (some (node_t.fresh (defaultPolicy.join_region init x)))
      r1 c1 r2 c2 := by
  simp [Inv, node_t.fresh, defaultPolicy]

theorem updateBody_none_eq (p : Policy T) (init : T) (tr1 tc1 tr2 tc2 : Int)
    (md : T) (rec : Option (node_t T) → Int → Int → Int → Int → node_t T)
    (r1 c1 r2 c2 : Int) :
    updateBody p init tr1 tc1 tr2 tc2 md rec none r1 c1 r2 c2 =
      updateBody p init tr1 tc1 tr2 tc2 md rec
        (some (node_t.fresh (p.join_region init
          (wrap32 ((r2 - r1 + 1) * (c2 - r1 + 1)))))) r1 c1 r2 c2 :=
  rfl

theorem Inv_updateBody_some (TU : Int → Int → Prop) (init d : Int)
    (tr1 tc1 tr2 tc2 : Int) (htr : tr1 ≤ tr2) (htc : tc1 ≤ tc2)
    (hT : ∀ r c, inRect tr1 tc1 tr2 tc2 r c → TU r c)
    (rec : Option (node_t Int) → Int → Int → Int → Int → node_t Int)
    (hrec : ∀ (n' : Option (node_t Int)) (a1 b1 a2 b2 : Int),
      a1 ≤ a2 + 1 → b1 ≤ b2 + 1 → Inv TU init n' a1 b1 a2 b2 →
      Inv TU init (some (rec n' a1 b1 a2 b2)) a1 b1 a2 b2)
    (m : node_t Int) (r1 c1 r2 c2 : Int)
    (hOK1 : r1 ≤ r2 + 1) (hOK2 : c1 ≤ c2 + 1)
    (h : Inv TU init (some m) r1 c1 r2 c2) :
    Inv TU init
      (some (updateBody defaultPolicy init tr1 tc1 tr2 tc2 d rec (some m)
        r1 c1 r2 c2)) r1 c1 r2 c2 := by
  have hres : Inv TU init
      (some (update_delta_resolve defaultPolicy init d m r1 c1 r2 c2))
      r1 c1 r2 c2 :=
    Inv_resolve TU init d m r1 c1 r2 c2 hOK1 hOK2 h
  by_cases hd : tr2 < r1 ∨ tr1 > r2 ∨ tc2 < c1 ∨ tc1 > c2
  · simp only [updateBody, if_pos hd]
    exact hres
  · by_cases hc : tr1 ≤ r1 ∧ r2 ≤ tr2 ∧ tc1 ≤ c1 ∧ c2 ≤ tc2
    · simp only [updateBody, if_neg hd, if_pos hc]
      exact Inv_resolve TU init d _ r1 c1 r2 c2 hOK1 hOK2
        (Inv_set_pending TU init _ r1 c1 r2 c2
          (fun r c hs => hT r c
            (strip_sub_contained tr1 tc1 tr2 tc2 r1 c1 r2 c2 r c hd hc hs))
          hres)
    · simp only [updateBody, if_neg hd, if_neg hc]
      obtain ⟨hok0, hok1, hok2, hok3⟩ := rectOK_children r1 c1 r2 c2 hOK1 hOK2
      obtain ⟨rw', cw, hsw, htw⟩ :=
        strip_meet tr1 tc1 tr2 tc2 r1 c1 r2 c2 htr htc hd
      cases hMdef : update_delta_resolve defaultPolicy init d m r1 c1 r2 c2 with
      | mk mv mdel mp mk0 mk1 mk2 mk3 =>
        rw [hMdef] at hres
        have hmp : mp = false := by
          have hpf := resolve_pending_false defaultPolicy init d m r1 c1 r2 c2
          rw [hMdef] at hpf
          simpa [node_t.pending] using hpf
        subst hmp
        simp only [Inv, node_t.value, node_t.delta, node_t.pending,
          node_t.c0, node_t.c1, node_t.c2, node_t.c3] at hres ⊢
        exact ⟨fun _ => ⟨rw', cw, strip_sub_box _ _ _ _ _ _ hsw, hT _ _ htw⟩,
          fun hp => absurd hp Bool.false_ne_true,
          hrec mk0 r1 c1 _ _ hok0 hok2 hres.2.2.1,
          hrec mk1 _ c1 r2 _ hok1 hok2 hres.2.2.2.1,
          hrec mk2 r1 _ _ c2 hok0 hok3 hres.2.2.2.2.1,
          hrec mk3 _ _ r2 c2 hok1 hok3 hres.2.2.2.2.2⟩

theorem Inv_updateBody (TU : Int → Int → Prop) (init d : Int)
    (tr1 tc1 tr2 tc2 : Int) (htr : tr1 ≤ tr2) (htc : tc1 ≤ tc2)
    (hT : ∀ r c, inRect tr1 tc1 tr2 tc2 r c → TU r c)
    (rec : Option (node_t Int) → Int → Int → Int → Int → node_t Int)
    (hrec : ∀ (n' : Option (node_t Int)) (a1 b1 a2 b2 : Int),
      a1 ≤ a2 + 1 → b1 ≤ b2 + 1 → Inv TU init n' a1 b1 a2 b2 →
      Inv TU init (some (rec n' a1 b1 a2 b2)) a1 b1 a2 b2)
    (n : Option (node_t Int)) (r1 c1 r2 c2 : Int)
    (hOK1 : r1 ≤ r2 + 1) (hOK2 : c1 ≤ c2 + 1)
    (h : Inv TU init n r1 c1 r2 c2) :
    Inv TU init
      (some (updateBody defaultPolicy init tr1 tc1 tr2 tc2 d rec n
        r1 c1 r2 c2)) r1 c1 r2 c2 := by
  cases n with
  | none =>
    rw [updateBody_none_eq]
    exact Inv_updateBody_some TU init d tr1 tc1 tr2 tc2 htr htc hT rec hrec
      _ r1 c1 r2 c2 hOK1 hOK2 (Inv_fresh TU init _ r1 c1 r2 c2)
  | some m =>
    exact Inv_updateBody_some TU init d tr1 tc1 tr2 tc2 htr htc hT rec hrec
      m r1 c1 r2 c2 hOK1 hOK2 h

/-- The private update traversal preserves the untouched-region invariant,
for any fuel, provided the (valid) target rectangle is contained in the
touched set. -/
theorem Inv_updateInner (TU : Int → Int → Prop) (init d : Int)
    (tr1 tc1 tr2 tc2 : Int) (htr : tr1 ≤ tr2) (htc : tc1 ≤ tc2)
    (hT : ∀ r c, inRect tr1 tc1 tr2 tc2 r c → TU r c) :
    ∀ (fuel : Nat) (n : Option (node_t Int)) (r1 c1 r2 c2 : Int),
      r1 ≤ r2 + 1 → c1 ≤ c2 + 1 →
      Inv TU init n r1 c1 r2 c2 →
      Inv TU init
        (some (updateInner defaultPolicy init tr1 tc1 tr2 tc2 d fuel n
          r1 c1 r2 c2)) r1 c1 r2 c2 := by
  intro fuel
  induction fuel with
  | zero =>
    intro n r1 c1 r2 c2 hOK1 hOK2 h
    cases n with
    | none =>
      simp only [updateInner]
      exact Inv_fresh TU init _ r1 c1 r2 c2
    | some m =>
      simpa only [updateInner] using h
  | succ f ihf =>
    intro n r1 c1 r2 c2 hOK1 hOK2 h
    rw [updateInner_succ_eq]
    exact Inv_updateBody TU init d tr1 tc1 tr2 tc2 htr htc hT _
      (fun n' a1 b1 a2 b2 hOA hOB hI => ihf n' a1 b1 a2 b2 hOA hOB hI)
      n r1 c1 r2 c2 hOK1 hOK2 h

/-- The query traversal's mutation (resolve-on-visit) preserves the
untouched-region invariant, for any fuel and any query target. -/
theorem Inv_queryInner (TU : Int → Int → Prop) (init md : Int)
    (tr1 tc1 tr2 tc2 : Int) :
    ∀ (fuel : Nat) (n : Option (node_t Int)) (r1 c1 r2 c2 : Int)
      (acc : Option Int),
      r1 ≤ r2 + 1 → c1 ≤ c2 + 1 →
      Inv TU init n r1 c1 r2 c2 →
      Inv TU init
        (queryInner defaultPolicy init tr1 tc1 tr2 tc2 md fuel n
          r1 c1 r2 c2 acc).1 r1 c1 r2 c2 := by
  intro fuel
  induction fuel with
  | zero =>
    intro n r1 c1 r2 c2 acc hOK1 hOK2 h
    simpa only [queryInner] using h
  | succ f ihf =>
    intro n r1 c1 r2 c2 acc hOK1 hOK2 h
    by_cases hd : tr2 < r1 ∨ tr1 > r2 ∨ tc2 < c1 ∨ tc1 > c2
    · simpa only [queryInner, if_pos hd] using h
    · cases n with
      | none => simp only [queryInner, if_neg hd, Inv]
      | some m =>
        have hres : Inv TU init
            (some (update_delta_resolve defaultPolicy init md m r1 c1 r2 c2))
            r1 c1 r2 c2 :=
          Inv_resolve TU init md m r1 c1 r2 c2 hOK1 hOK2 h
        by_cases hc : tr1 ≤ r1 ∧ r2 ≤ tr2 ∧ tc1 ≤ c1 ∧ c2 ≤ tc2
        · simpa only [queryInner, if_neg hd, if_pos hc] using hres
        · simp only [queryInner, if_neg hd, if_neg hc]
          obtain ⟨hok0, hok1, hok2, hok3⟩ :=
            rectOK_children r1 c1 r2 c2 hOK1 hOK2
          cases hMdef : update_delta_resolve defaultPolicy init md m r1 c1 r2 c2 with
          | mk mv mdel mp mk0 mk1 mk2 mk3 =>
            rw [hMdef] at hres
            simp only [Inv, node_t.value, node_t.delta, node_t.pending,
              node_t.c0, node_t.c1, node_t.c2, node_t.c3] at hres ⊢
            exact ⟨hres.1, hres.2.1,
              ihf mk0 r1 c1 _ _ acc hok0 hok2 hres.2.2.1,
              ihf mk1 _ c1 r2 _ _ hok1 hok2 hres.2.2.2.1,
              ihf mk2 r1 _ _ c2 _ hok0 hok3 hres.2.2.2.2.1,
              ihf mk3 _ _ r2 c2 _ hok1 hok3 hres.2.2.2.2.2⟩

/-- Over a valid query target disjoint from every touched cell, every
contribution the query collects is `init`, so the accumulator stays
`none` or `some init`. -/
theorem queryInner_untouched (TU : Int → Int → Prop) (init md : Int)
    (tr1 tc1 tr2 tc2 : Int) (htr : tr1 ≤ tr2) (htc : tc1 ≤ tc2)
    (hun : ∀ r c, inRect tr1 tc1 tr2 tc2 r c → ¬ TU r c) :
    ∀ (fuel : Nat) (n : Option (node_t Int)) (r1 c1 r2 c2 : Int)
      (acc : Option Int),
      r1 ≤ r2 + 1 → c1 ≤ c2 + 1 →
      Inv TU init n r1 c1 r2 c2 → goodAcc init acc →
      goodAcc init
        (queryInner defaultPolicy init tr1 tc1 tr2 tc2 md fuel n
          r1 c1 r2 c2 acc).2 := by
  intro fuel
  induction fuel with
  | zero =>
    intro n r1 c1 r2 c2 acc _ _ _ hacc
    simpa only [queryInner] using hacc
  | succ f ihf =>
    intro n r1 c1 r2 c2 acc hOK1 hOK2 h hacc
    by_cases hd : tr2 < r1 ∨ tr1 > r2 ∨ tc2 < c1 ∨ tc1 > c2
    · simpa only [queryInner, if_pos hd] using hacc
    · cases n with
      | none =>
        simp only [queryInner, if_neg hd]
        rcases hacc with rfl | rfl
        · exact Or.inr (by simp [defaultPolicy])
        · exact Or.inr (by simp [defaultPolicy])
      | some m =>
        cases m with
        | mk mv mdel mp mk0 mk1 mk2 mk3 =>
          simp only [Inv] at h
          obtain ⟨h1, h2, hI0, hI1, hI2, hI3⟩ := h
          have hmp : mp = false := by
            cases hp : mp
            · rfl
            · exfalso
              subst hp
              obtain ⟨r, c, hs, hrect⟩ :=
                strip_meet tr1 tc1 tr2 tc2 r1 c1 r2 c2 htr htc hd
              exact hun r c hrect (h2 rfl r c hs)
          subst hmp
          have hresid : update_delta_resolve defaultPolicy init md
              (node_t.mk mv mdel false mk0 mk1 mk2 mk3) r1 c1 r2 c2 =
              node_t.mk mv mdel false mk0 mk1 mk2 mk3 :=
            resolve_of_not_pending _ _ _ _ _ _ _ _ rfl
          by_cases hc : tr1 ≤ r1 ∧ r2 ≤ tr2 ∧ tc1 ≤ c1 ∧ c2 ≤ tc2
          · simp only [queryInner, if_neg hd, if_pos hc, hresid]
            have hmv : mv = init := by
              by_cases hveq : mv = init
              · exact hveq
              · exfalso
                obtain ⟨r, c, hb, ht⟩ := h1 (Or.inl hveq)
                exact hun r c
                  (box_sub_contained tr1 tc1 tr2 tc2 r1 c1 r2 c2 r c hd hc hb)
                  ht
            subst hmv
            rcases hacc with rfl | rfl
            · exact Or.inr (by simp [node_t.value])
            · exact Or.inr (by simp [node_t.value, defaultPolicy])
          · simp only [queryInner, if_neg hd, if_neg hc, hresid,
              node_t.c0, node_t.c1, node_t.c2, node_t.c3]
            obtain ⟨hok0, hok1, hok2, hok3⟩ :=
              rectOK_children r1 c1 r2 c2 hOK1 hOK2
            exact ihf mk3 _ _ r2 c2 _ hok1 hok3 hI3
              (ihf mk2 r1 _ _ c2 _ hok0 hok3 hI2
                (ihf mk1 _ c1 r2 _ _ hok1 hok2 hI1
                  (ihf mk0 r1 c1 _ _ acc hok0 hok2 hI0 hacc)))

theorem execOp_init_eq (s : State Int) (op : Op) :
    (execOp s op).init = s.init := by
  cases op <;> rfl

/-- Running a history preserves the untouched-region invariant, adding the
targets of its updates to the touched set. -/
theorem exec_inv (init : Int) :
    ∀ (ops : List Op) (s : State Int) (TU : Int → Int → Prop),
      s.init = init →
      (∀ op ∈ ops, validOp op) →
      Inv TU init s.root 0 0 MAXR MAXC →
      (exec s ops).init = init ∧
      Inv (fun r c => TU r c ∨ touched ops r c) init (exec s ops).root
        0 0 MAXR MAXC := by
  intro ops
  induction ops with
  | nil =>
    intro s TU hinit _ h
    exact ⟨hinit,
      Inv_mono init TU _ (fun r c ht => Or.inl ht) _ _ _ _ _ h⟩
  | cons op ops ih =>
    intro s TU hinit hval h
    have hvop := hval op (List.mem_cons_self op ops)
    have hstep : Inv (fun r c => TU r c ∨ opTouches op r c) init
        (execOp s op).root 0 0 MAXR MAXC := by
      have hlift : Inv (fun r c => TU r c ∨ opTouches op r c) init s.root
          0 0 MAXR MAXC :=
        Inv_mono init TU _ (fun r c ht => Or.inl ht) _ _ _ _ _ h
      cases op with
      | upd a1 b1 a2 b2 d =>
        obtain ⟨hv1, hv2, hv3, hv4, hv5, hv6⟩ := hvop
        simp only [execOp, update, updateF]
        rw [hinit]
        exact Inv_updateInner _ init d a1 b1 a2 b2 hv2 hv5
          (fun r c hrect => Or.inr hrect) FUEL s.root 0 0 MAXR MAXC
          (by decide) (by decide) hlift
      | qry a1 b1 a2 b2 =>
        simp only [execOp, query, queryF]
        rw [hinit]
        exact Inv_queryInner _ init s.mdelta a1 b1 a2 b2 FUEL s.root
          0 0 MAXR MAXC none (by decide) (by decide) hlift
    have hih := ih (execOp s op) (fun r c => TU r c ∨ opTouches op r c)
      (by rw [execOp_init_eq, hinit])
      (fun o ho => hval o (List.mem_cons_of_mem _ ho)) hstep
    refine ⟨hih.1, Inv_mono init _ _ ?_ _ _ _ _ _ hih.2⟩
    intro r c hx
    rcases hx with (ht | hop) | hrest
    · exact Or.inl ht
    · exact Or.inr ⟨op, List.mem_cons_self _ _, hop⟩
    · obtain ⟨o, ho, hto⟩ := hrest
      exact Or.inr ⟨o, List.mem_cons_of_mem _ ho, hto⟩

/-! ## Claim theorems -/

/-- C1: the claim states that resolving a pending node sets its value to
`join_value_with_delta(value, d, area(R))` where `d` is *that node's own
stored pending delta*, and pushes the same stored `d` into the children.
The code instead reads the class member `delta` (the delta of the most
recent public `update` call).  Concretely: resolving a pending unit node
whose stored delta is `7` while the member delta is `3` sets the value to
`3 = join_value_with_delta(0, 3, 1)`, not to
`7 = join_value_with_delta(0, 7, 1)` as the claim prescribes. -/
theorem c1_resolve_reads_member_delta_not_stored_delta :
    pendingNode7.pending = true ∧
    pendingNode7.delta = 7 ∧
    (update_delta_resolve defaultPolicy 0 3 pendingNode7 0 0 0 0).value = 3 ∧
    defaultPolicy.join_value_with_delta pendingNode7.value pendingNode7.delta
      (wrap32 ((0 - 0 + 1) * (0 - 0 + 1))) = 7 ∧
    (3 : Int) ≠ 7 := by
  refine ⟨rfl, rfl, rfl, rfl, by decide⟩

/-- C2: the locality claim fails on the code.  After `update(0,0,1,1,7)`,
reading `at(0,0)` gives `7`; but from the same state, first performing
`update(1,1,1,1,3)` — whose rectangle `[1,1]×[1,1]` is disjoint from the
queried cell `(0,0)` — changes the subsequent `at(0,0)` to `3`, because
the traversal resolves the still-pending cell `(0,0)` with the *member*
delta `3` instead of its stored delta `7`. -/
theorem c2_locality_counterexample :
    rectDisjoint 0 0 0 0 1 1 1 1 ∧
    (at_ defaultPolicy locState1 0 0).1 = 7 ∧
    (at_ defaultPolicy locState2 0 0).1 = 3 ∧
    (7 : Int) ≠ 3 := by
  refine ⟨?_, by decide, by decide, by decide⟩
  intro r c h h'
  simp only [inRect] at h h'
  omega

/-- C4: untouched-region default.  For every valid history of updates and
queries from construction, and every in-bounds rectangle none of whose
cells lies in any update target of the history, `query` over that
rectangle returns `join_region(init, A)` with `A = (r2-r1+1)*(c2-c1+1)`
(the default `join_region` ignores the area, so this is `init`); in
particular on a freshly constructed tree every in-bounds query returns
`join_region(init, A)`. -/
theorem c4_untouched_query_returns_init (init : Int) (ops : List Op)
    (r1 c1 r2 c2 : Int)
    (hval : ∀ op ∈ ops, validOp op)
    (hr0 : 0 ≤ r1) (hr : r1 ≤ r2) (hrM : r2 ≤ MAXR)
    (hc0 : 0 ≤ c1) (hcc : c1 ≤ c2) (hcM : c2 ≤ MAXC)
    (hun : ∀ r c, inRect r1 c1 r2 c2 r c → ¬ touched ops r c) :
    (query defaultPolicy (exec (construct init) ops) r1 c1 r2 c2).1 =
      defaultPolicy.join_region init ((r2 - r1 + 1) * (c2 - c1 + 1)) ∧
    (query defaultPolicy (construct init) r1 c1 r2 c2).1 =
      defaultPolicy.join_region init ((r2 - r1 + 1) * (c2 - c1 + 1)) := by
  have hmain : ∀ ops' : List Op, (∀ op ∈ ops', validOp op) →
      (∀ r c, inRect r1 c1 r2 c2 r c → ¬ touched ops' r c) →
      (query defaultPolicy (exec (construct init) ops') r1 c1 r2 c2).1 =
        defaultPolicy.join_region init ((r2 - r1 + 1) * (c2 - c1 + 1)) := by
    intro ops' hval' hun'
    obtain ⟨hinit, hInv⟩ := exec_inv init ops' (construct init)
      (fun _ _ => False) rfl hval' (by simp [construct, Inv])
    have hInv' : Inv (touched ops') init
        (exec (construct init) ops').root 0 0 MAXR MAXC :=
      Inv_mono init _ _ (fun r c hx => hx.elim False.elim id) _ _ _ _ _ hInv
    have hacc : goodAcc init
        (queryInner defaultPolicy (exec (construct init) ops').init
          r1 c1 r2 c2 (exec (construct init) ops').mdelta FUEL
          (exec (construct init) ops').root 0 0 MAXR MAXC none).2 := by
      rw [hinit]
      exact queryInner_untouched (touched ops') init _ r1 c1 r2 c2 hr hcc
        hun' FUEL _ 0 0 MAXR MAXC none (by decide) (by decide) hInv'
        (Or.inl rfl)
    simp only [query, queryF]
    cases hq : queryInner defaultPolicy (exec (construct init) ops').init
        r1 c1 r2 c2 (exec (construct init) ops').mdelta FUEL
        (exec (construct init) ops').root 0 0 MAXR MAXC none with
    | mk n acc =>
      rw [hq] at hacc
      rcases hacc with rfl | rfl
      · simp [defaultPolicy, hinit]
      · simp [defaultPolicy]
  refine ⟨hmain ops hval hun, ?_⟩
  have hempty := hmain []
    (fun op hop => absurd hop (List.not_mem_nil op))
    (fun r c _ ht => by
      obtain ⟨o, ho, _⟩ := ht
      exact absurd ho (List.not_mem_nil o))
  simpa only [exec] using hempty

/-- Witness for the untouched-region theorem: after `update(0,0,1,1,7)` on
a tree with `init = 5`, the query over the untouched `[2,3] × [2,3]`
returns `join_region(5, 4) = 5`, as does the same query on a fresh
tree. -/
theorem c4_untouched_query_returns_init_witness :
    (∀ op ∈ [Op.upd 0 0 1 1 7], validOp op) ∧
    ((0 : Int) ≤ 2 ∧ (2 : Int) ≤ 3 ∧ (3 : Int) ≤ MAXR ∧
     (0 : Int) ≤ 2 ∧ (2 : Int) ≤ 3 ∧ (3 : Int) ≤ MAXC) ∧
    (∀ r c, inRect 2 2 3 3 r c → ¬ touched [Op.upd 0 0 1 1 7] r c) ∧
    ((query defaultPolicy (exec (construct 5) [Op.upd 0 0 1 1 7]) 2 2 3 3).1 =
      defaultPolicy.join_region 5 ((3 - 2 + 1) * (3 - 2 + 1)) ∧
     (query defaultPolicy (construct 5) 2 2 3 3).1 =
      defaultPolicy.join_region 5 ((3 - 2 + 1) * (3 - 2 + 1))) := by
  have hval : ∀ op ∈ [Op.upd 0 0 1 1 7], validOp op := by
    intro op hop
    rw [List.mem_singleton] at hop
    subst hop
    refine ⟨by decide, by decide, by decide, by decide, by decide, by decide⟩
  have hun : ∀ r c, inRect 2 2 3 3 r c → ¬ touched [Op.upd 0 0 1 1 7] r c := by
    intro r c hrc ht
    obtain ⟨op, hop, hto⟩ := ht
    rw [List.mem_singleton] at hop
    subst hop
    simp only [opTouches, inRect] at hrc hto
    omega
  exact ⟨hval,
    ⟨by decide, by decide, by decide, by decide, by decide, by decide⟩, hun,
    c4_untouched_query_returns_init 5 [Op.upd 0 0 1 1 7] 2 2 3 3 hval
      (by decide) (by decide) (by decide) (by decide) (by decide) (by decide)
      hun⟩

set_option maxRecDepth 40000 in
/-- C3: the reference scenario.  With `init = 0` and the default policy,
after the seven updates of the source's `main`, the 3×3 grid read by
`at` is `7 6 9 / 0 4 9 / 9 9 9`; the four queries return `6`, `0`, `4`
and `0`; and after `update(0, 5·10^8, 0, 5·10^8, -100)`, the query over
the full grid returns `-100`. -/
theorem c3_reference_scenario :
    refG00.1 = 7 ∧ refG01.1 = 6 ∧ refG02.1 = 9 ∧
    refG10.1 = 0 ∧ refG11.1 = 4 ∧ refG12.1 = 9 ∧
    refG20.1 = 9 ∧ refG21.1 = 9 ∧ refG22.1 = 9 ∧
    refQ1.1 = 6 ∧ refQ2.1 = 0 ∧ refQ3.1 = 4 ∧ refQ4.1 = 0 ∧
    refQ5.1 = -100 := by
  decide

/-- C5: node creation during update.  The claim states a node created for
rectangle `[r1,r2] × [c1,c2]` is initialized with
`value = join_region(init, (r2-r1+1)*(c2-c1+1))`; the code instead
computes `(r2-r1+1)*(c2-r1+1)`, reusing the row coordinate.  Observed
with a policy whose `join_region` returns its area argument: creating the
node for `[0,1] × [2,3]` (the update's target being disjoint, so the
created node is returned untouched apart from the no-op resolve) stores
`8 = (1-0+1)*(3-0+1)` and not `4 = (1-0+1)*(3-2+1)`.  The `pending`
flag and the four children are as claimed. -/
theorem c5_creation_area_uses_row_coordinate :
    (updateInner areaPolicy 0 9 9 9 9 5 FUEL none 0 2 1 3).value = 8 ∧
    areaPolicy.join_region 0 ((1 - 0 + 1) * (3 - 2 + 1)) = 4 ∧
    (8 : Int) ≠ 4 ∧
    (updateInner areaPolicy 0 9 9 9 9 5 FUEL none 0 2 1 3).pending = false ∧
    (updateInner areaPolicy 0 9 9 9 9 5 FUEL none 0 2 1 3).c0 = none ∧
    (updateInner areaPolicy 0 9 9 9 9 5 FUEL none 0 2 1 3).c1 = none ∧
    (updateInner areaPolicy 0 9 9 9 9 5 FUEL none 0 2 1 3).c2 = none ∧
    (updateInner areaPolicy 0 9 9 9 9 5 FUEL none 0 2 1 3).c3 = none := by
  refine ⟨by decide, by decide, by decide, by decide, rfl, rfl, rfl, rfl⟩

/-- C6: update and query split every partially overlapping rectangle at
the same floor midpoints `rmid = (r1+r2)/2`, `cmid = (c1+c2)/2` into the
same four quadrants, visited in the fixed order NW, NE, SW, SE (query
threads its accumulator through them in that order), and update then
recomputes the node's value as the ordered `join_values` of the four
children's values with the first child's value taken verbatim. -/
theorem c6_same_split_same_order (p : Policy T) (init : T)
    (tr1 tc1 tr2 tc2 : Int) (md : T) (f : Nat) (n : node_t T)
    (r1 c1 r2 c2 : Int) (acc : Option T)
    (hd : ¬ (tr2 < r1 ∨ tr1 > r2 ∨ tc2 < c1 ∨ tc1 > c2))
    (hc : ¬ (tr1 ≤ r1 ∧ r2 ≤ tr2 ∧ tc1 ≤ c1 ∧ c2 ≤ tc2)) :
    (updateInner p init tr1 tc1 tr2 tc2 md (f + 1) (some n) r1 c1 r2 c2 =
      (let m := update_delta_resolve p init md n r1 c1 r2 c2
       let rmid := (r1 + r2) / 2
       let cmid := (c1 + c2) / 2
       let m0 := updateInner p init tr1 tc1 tr2 tc2 md f m.c0 r1 c1 rmid cmid
       let m1 := updateInner p init tr1 tc1 tr2 tc2 md f m.c1 (rmid + 1) c1 r2 cmid
       let m2 := updateInner p init tr1 tc1 tr2 tc2 md f m.c2 r1 (cmid + 1) rmid c2
       let m3 := updateInner p init tr1 tc1 tr2 tc2 md f m.c3 (rmid + 1) (cmid + 1) r2 c2
       node_t.mk
         (p.join_values (p.join_values (p.join_values m0.value m1.value) m2.value) m3.value)
         m.delta m.pending (some m0) (some m1) (some m2) (some m3))) ∧
    (queryInner p init tr1 tc1 tr2 tc2 md (f + 1) (some n) r1 c1 r2 c2 acc =
      (let m := update_delta_resolve p init md n r1 c1 r2 c2
       let rmid := (r1 + r2) / 2
       let cmid := (c1 + c2) / 2
       let q0 := queryInner p init tr1 tc1 tr2 tc2 md f m.c0 r1 c1 rmid cmid acc
       let q1 := queryInner p init tr1 tc1 tr2 tc2 md f m.c1 (rmid + 1) c1 r2 cmid q0.2
       let q2 := queryInner p init tr1 tc1 tr2 tc2 md f m.c2 r1 (cmid + 1) rmid c2 q1.2
       let q3 := queryInner p init tr1 tc1 tr2 tc2 md f m.c3 (rmid + 1) (cmid + 1) r2 c2 q2.2
       (some (node_t.mk m.value m.delta m.pending q0.1 q1.1 q2.1 q3.1), q3.2))) := by
  constructor
  · simp only [updateInner, if_neg hd, if_neg hc]
  · simp only [queryInner, if_neg hd, if_neg hc]

/-- Witness for the quadrant-decomposition theorem at a concrete partial
overlap: rectangle `[0,3] × [0,3]`, target cell `(1,1)`. -/
theorem c6_same_split_same_order_witness :
    (¬ ((1 : Int) < 0 ∨ (1 : Int) > 3 ∨ (1 : Int) < 0 ∨ (1 : Int) > 3)) ∧
    (updateInner defaultPolicy 0 1 1 1 1 5 (3 + 1) (some (node_t.fresh 0)) 0 0 3 3 =
      (let m := update_delta_resolve defaultPolicy 0 5 (node_t.fresh 0) 0 0 3 3
       let rmid := ((0 : Int) + 3) / 2
       let cmid := ((0 : Int) + 3) / 2
       let m0 := updateInner defaultPolicy 0 1 1 1 1 5 3 m.c0 0 0 rmid cmid
       let m1 := updateInner defaultPolicy 0 1 1 1 1 5 3 m.c1 (rmid + 1) 0 3 cmid
       let m2 := updateInner defaultPolicy 0 1 1 1 1 5 3 m.c2 0 (cmid + 1) rmid 3
       let m3 := updateInner defaultPolicy 0 1 1 1 1 5 3 m.c3 (rmid + 1) (cmid + 1) 3 3
       node_t.mk
         (defaultPolicy.join_values
           (defaultPolicy.join_values
             (defaultPolicy.join_values m0.value m1.value) m2.value) m3.value)
         m.delta m.pending (some m0) (some m1) (some m2) (some m3))) ∧
    (queryInner defaultPolicy 0 1 1 1 1 5 (3 + 1) (some (node_t.fresh 0)) 0 0 3 3 none =
      (let m := update_delta_resolve defaultPolicy 0 5 (node_t.fresh 0) 0 0 3 3
       let rmid := ((0 : Int) + 3) / 2
       let cmid := ((0 : Int) + 3) / 2
       let q0 := queryInner defaultPolicy 0 1 1 1 1 5 3 m.c0 0 0 rmid cmid none
       let q1 := queryInner defaultPolicy 0 1 1 1 1 5 3 m.c1 (rmid + 1) 0 3 cmid q0.2
       let q2 := queryInner defaultPolicy 0 1 1 1 1 5 3 m.c2 0 (cmid + 1) rmid 3 q1.2
       let q3 := queryInner defaultPolicy 0 1 1 1 1 5 3 m.c3 (rmid + 1) (cmid + 1) 3 3 q2.2
       (some (node_t.mk m.value m.delta m.pending q0.1 q1.1 q2.1 q3.1), q3.2))) := by
  refine ⟨by decide, ?_, ?_⟩
  · exact (c6_same_split_same_order defaultPolicy 0 1 1 1 1 5 3
      (node_t.fresh 0) 0 0 3 3 none (by decide) (by decide)).1
  · exact (c6_same_split_same_order defaultPolicy 0 1 1 1 1 5 3
      (node_t.fresh 0) 0 0 3 3 none (by decide) (by decide)).2

/-- C8: termination.  The public operations run the recursion with
`FUEL = 32`, and for every in-bounds well-formed call any fuel of at
least `FUEL` produces the identical result — i.e. the quadrant descent
reaches a base case (disjoint, absent, contained, or measure-zero
rectangle) on every path and never recurses indefinitely.  The point
forms `update(r,c,d)` and `at(r,c)` are the degenerate-rectangle
instances. -/
theorem c8_runs_to_completion (p : Policy T) (s : State T)
    (r1 c1 r2 c2 : Int) (d : T) (f : Nat)
    (hr0 : 0 ≤ r1) (hr : r1 ≤ r2) (hrM : r2 ≤ MAXR)
    (hc0 : 0 ≤ c1) (hc : c1 ≤ c2) (hcM : c2 ≤ MAXC)
    (hf : FUEL ≤ f) :
    updateF p f s r1 c1 r2 c2 d = update p s r1 c1 r2 c2 d ∧
    queryF p f s r1 c1 r2 c2 = query p s r1 c1 r2 c2 ∧
    updateF p f s r1 c1 r1 c1 d = updatePoint p s r1 c1 d ∧
    queryF p f s r1 c1 r1 c1 = at_ p s r1 c1 :=
  ⟨updateF_fuel_stable p s r1 c1 r2 c2 d f hf,
   queryF_fuel_stable p s r1 c1 r2 c2 f hf,
   updateF_fuel_stable p s r1 c1 r1 c1 d f hf,
   queryF_fuel_stable p s r1 c1 r1 c1 f hf⟩

/-- Witness for the termination theorem: fuel `50` on the rectangle
`[0,5] × [0,7]` gives the same results as the public operations. -/
theorem c8_runs_to_completion_witness :
    ((0 : Int) ≤ 0 ∧ (0 : Int) ≤ 5 ∧ (5 : Int) ≤ MAXR ∧
     (0 : Int) ≤ 0 ∧ (0 : Int) ≤ 7 ∧ (7 : Int) ≤ MAXC ∧ FUEL ≤ 50) ∧
    (updateF defaultPolicy 50 (construct 0) 0 0 5 7 2 =
      update defaultPolicy (construct 0) 0 0 5 7 2 ∧
     queryF defaultPolicy 50 (construct 0) 0 0 5 7 =
      query defaultPolicy (construct 0) 0 0 5 7 ∧
     updateF defaultPolicy 50 (construct 0) 0 0 0 0 2 =
      updatePoint defaultPolicy (construct 0) 0 0 2 ∧
     queryF defaultPolicy 50 (construct 0) 0 0 0 0 =
      at_ defaultPolicy (construct 0) 0 0) :=
  ⟨⟨by decide, by decide, by decide, by decide, by decide, by decide, by decide⟩,
   c8_runs_to_completion defaultPolicy (construct 0) 0 0 5 7 2 50
    (by decide) (by decide) (by decide) (by decide) (by decide) (by decide)
    (by decide)⟩

/-- C9: every recursive update call materializes its node before the
disjointness test — an absent node is created (with the source's creation
value) and returned even when its rectangle is disjoint from the target —
and therefore, in the partial-overlap case, after the four recursive
calls all four children are present and the recomputed aggregate is the
ordered join of exactly those four (materialized) children's values, so
the unconditional child dereferences never hit an absent child. -/
theorem c9_children_materialized (p : Policy T) (init : T)
    (tr1 tc1 tr2 tc2 : Int) (md : T) (f : Nat) (r1 c1 r2 c2 : Int) :
    ((tr2 < r1 ∨ tr1 > r2 ∨ tc2 < c1 ∨ tc1 > c2) →
      updateInner p init tr1 tc1 tr2 tc2 md (f + 1) none r1 c1 r2 c2 =
        node_t.fresh (p.join_region init (wrap32 ((r2 - r1 + 1) * (c2 - r1 + 1))))) ∧
    (∀ n : Option (node_t T),
      ¬ (tr2 < r1 ∨ tr1 > r2 ∨ tc2 < c1 ∨ tc1 > c2) →
      ¬ (tr1 ≤ r1 ∧ r2 ≤ tr2 ∧ tc1 ≤ c1 ∧ c2 ≤ tc2) →
      ∃ m0 m1 m2 m3 : node_t T,
        (updateInner p init tr1 tc1 tr2 tc2 md (f + 1) n r1 c1 r2 c2).c0 = some m0 ∧
        (updateInner p init tr1 tc1 tr2 tc2 md (f + 1) n r1 c1 r2 c2).c1 = some m1 ∧
        (updateInner p init tr1 tc1 tr2 tc2 md (f + 1) n r1 c1 r2 c2).c2 = some m2 ∧
        (updateInner p init tr1 tc1 tr2 tc2 md (f + 1) n r1 c1 r2 c2).c3 = some m3 ∧
        (updateInner p init tr1 tc1 tr2 tc2 md (f + 1) n r1 c1 r2 c2).value =
          p.join_values (p.join_values (p.join_values m0.value m1.value) m2.value)
            m3.value) := by
  constructor
  · intro hd
    simp only [updateInner, if_pos hd]
    exact resolve_of_not_pending _ _ _ _ _ _ _ _ rfl
  · intro n hd hc
    simp only [updateInner, if_neg hd, if_neg hc]
    exact ⟨_, _, _, _, rfl, rfl, rfl, rfl, rfl⟩

/-- Witness for the materialization theorem: a disjoint creation (target
cell `(9,9)`, rectangle `[0,1] × [0,1]`) and a partial overlap (target
cell `(1,1)`, rectangle `[0,3] × [0,3]`). -/
theorem c9_children_materialized_witness :
    ((9 : Int) < 0 ∨ (9 : Int) > 1 ∨ (9 : Int) < 0 ∨ (9 : Int) > 1) ∧
    (updateInner defaultPolicy 0 9 9 9 9 4 (5 + 1) none 0 0 1 1 =
      node_t.fresh (defaultPolicy.join_region 0 (wrap32 ((1 - 0 + 1) * (1 - 0 + 1))))) ∧
    (∃ m0 m1 m2 m3 : node_t Int,
      (updateInner defaultPolicy 0 1 1 1 1 4 (5 + 1) (some (node_t.fresh 0)) 0 0 3 3).c0 = some m0 ∧
      (updateInner defaultPolicy 0 1 1 1 1 4 (5 + 1) (some (node_t.fresh 0)) 0 0 3 3).c1 = some m1 ∧
      (updateInner defaultPolicy 0 1 1 1 1 4 (5 + 1) (some (node_t.fresh 0)) 0 0 3 3).c2 = some m2 ∧
      (updateInner defaultPolicy 0 1 1 1 1 4 (5 + 1) (some (node_t.fresh 0)) 0 0 3 3).c3 = some m3 ∧
      (updateInner defaultPolicy 0 1 1 1 1 4 (5 + 1) (some (node_t.fresh 0)) 0 0 3 3).value =
        defaultPolicy.join_values
          (defaultPolicy.join_values
            (defaultPolicy.join_values m0.value m1.value) m2.value) m3.value) :=
  ⟨by decide,
   (c9_children_materialized defaultPolicy 0 9 9 9 9 4 5 0 0 1 1).1 (by decide),
   (c9_children_materialized defaultPolicy 0 1 1 1 1 4 5 0 0 3 3).2
     (some (node_t.fresh 0)) (by decide) (by decide)⟩

/-- C7: idempotence under the code's default "assign" policy
(`join_value_with_delta` returns `d`, `join_deltas` returns the more
recent delta): performing the same rectangle update twice in succession
from any state leaves the tree in exactly the same state as performing it
once, hence every subsequent query — and therefore every subsequent
sequence of operations — returns identical results; the single-cell
update form is the degenerate rectangle and is idempotent as well. -/
theorem c7_assign_update_idempotent (s : State Int) (r1 c1 r2 c2 d : Int) :
    update defaultPolicy (update defaultPolicy s r1 c1 r2 c2 d) r1 c1 r2 c2 d =
      update defaultPolicy s r1 c1 r2 c2 d ∧
    (∀ q1 q2 q3 q4 : Int,
      (query defaultPolicy
        (update defaultPolicy (update defaultPolicy s r1 c1 r2 c2 d) r1 c1 r2 c2 d)
        q1 q2 q3 q4).1 =
      (query defaultPolicy (update defaultPolicy s r1 c1 r2 c2 d) q1 q2 q3 q4).1) ∧
    (∀ r c : Int,
      updatePoint defaultPolicy (updatePoint defaultPolicy s r c d) r c d =
        updatePoint defaultPolicy s r c d) := by
  have key : ∀ (t : State Int) (a1 b1 a2 b2 : Int),
      update defaultPolicy (update defaultPolicy t a1 b1 a2 b2 d) a1 b1 a2 b2 d =
        update defaultPolicy t a1 b1 a2 b2 d := by
    intro t a1 b1 a2 b2
    simp only [update, updateF]
    exact congrArg (fun x => State.mk (some x) t.init d)
      (updateInner_idem_default t.init a1 b1 a2 b2 d FUEL t.root 0 0 MAXR MAXC)
  refine ⟨key s r1 c1 r2 c2, ?_, ?_⟩
  · intro q1 q2 q3 q4
    rw [key s r1 c1 r2 c2]
  · intro r c
    exact key s r c r c

/-- C10: every area the code passes to `join_region` and
`join_value_with_delta` is a 32-bit `int` product of the side lengths.
Observed with a policy that reports the received area: a query over the
whole grid on a fresh tree hands `join_region` the value
`513381377 = (10^9+1)^2 mod 2^32` (interpreted as a signed 32-bit int),
and an update covering the whole grid hands `join_value_with_delta` the
same value when resolving the root; both differ from the true cell count
`(10^9+1)^2 = 1000000002000000001` but are congruent to it modulo
`2^32`. -/
theorem c10_areas_are_wrapped_32bit_products :
    (queryF areaPolicy FUEL (construct 0) 0 0 MAXR MAXC).1 =
      wrap32 ((MAXR + 1) * (MAXC + 1)) ∧
    rootValue (updateF areaPolicy FUEL (construct 0) 0 0 MAXR MAXC 5) =
      wrap32 ((MAXR + 1) * (MAXC + 1)) ∧
    wrap32 ((MAXR + 1) * (MAXC + 1)) = 513381377 ∧
    wrap32 ((MAXR + 1) * (MAXC + 1)) ≠ (MAXR + 1) * (MAXC + 1) ∧
    ((MAXR + 1) * (MAXC + 1) - wrap32 ((MAXR + 1) * (MAXC + 1))) % 2 ^ 32 = 0 := by
  refine ⟨by decide, by decide, by decide, by decide, by decide⟩

end Quadtree
